import Mathlib

/-
Verification development for the DM-VIO front-end core (dso namespace):
the immature-point epipolar depth filter `ImmaturePoint::traceOn`,
`ImmaturePoint::calcResidual`, and the `FullSystem` routines
`activatePointsMT`, `setGammaFunction`, the initialisation-failure check in
`makeKeyFrame`, and `initializeFromInitializer`.

Modelling conventions.  Float arithmetic is idealised as exact rational
arithmetic extended with IEEE special values: a value is either a finite
rational `FV.fin q`, a signed infinity `FV.inf s` (`s = true` for the
negative one), or `FV.nan`.  Float literals of the source (0.2f, 1e-5f,
1.9999f, ...) are read as the exact rationals they denote.  Operations
propagate the special values following IEEE-754 (0 * inf = nan,
x / 0 = signed inf for x nonzero, 0 / 0 = nan, comparisons against nan are
false); the model has a single unsigned zero, so the sign of an infinity
produced by division by zero follows the sign of the numerator.
`sqrtf` is an external library routine and is taken as an oracle parameter
`sq : Q -> Q` of the trace configuration; image interpolation
(`getInterpolatedElement31/33`, from util/globalFuncs.h, outside this
repository) is taken as an oracle `dI : Q -> Q -> Option (Q x Q x Q)`
returning `none` exactly when the interpolated channel-0 value is
non-finite; the residual pattern `patternP` (settings.h, outside this
repository) is a parameter list of integer offsets.
-/

namespace DMVIO

/-- Idealised float value: exact rational, signed infinity, or nan. -/
inductive FV where
  | fin (q : ℚ)
  | inf (neg : Bool)
  | nan
deriving DecidableEq

namespace FV

/-- Test mirroring `std::isfinite`. -/
def isFinite : FV → Bool
  | fin _ => true
  | _ => false

/-- Negation of an idealised float. -/
def neg : FV → FV
  | fin q => fin (-q)
  | inf s => inf (!s)
  | nan => nan

/-- Addition of idealised floats. -/
def add : FV → FV → FV
  | fin a, fin b => fin (a + b)
  | fin _, inf s => inf s
  | inf s, fin _ => inf s
  | inf s, inf t => if s = t then inf s else nan
  | nan, _ => nan
  | _, nan => nan

/-- Subtraction of idealised floats. -/
def sub (a b : FV) : FV := add a (neg b)

/-- Multiplication of idealised floats (0 * inf = nan). -/
def mul : FV → FV → FV
  | fin a, fin b => fin (a * b)
  | fin a, inf s => if a = 0 then nan else inf (xor (decide (a < 0)) s)
  | inf s, fin a => if a = 0 then nan else inf (xor (decide (a < 0)) s)
  | inf s, inf t => inf (xor s t)
  | nan, _ => nan
  | _, nan => nan

/-- Division of idealised floats; the sign of x / 0 follows the numerator
because the model's zero is unsigned. -/
def div : FV → FV → FV
  | fin a, fin b =>
      if b = 0 then (if a = 0 then nan else inf (decide (a < 0)))
      else fin (a / b)
  | fin _, inf _ => fin 0
  | inf s, fin b => inf (xor s (decide (b < 0)))
  | inf _, inf _ => nan
  | nan, _ => nan
  | _, nan => nan

/-- Strict order on idealised floats; any comparison with nan is false. -/
def lt : FV → FV → Bool
  | fin a, fin b => decide (a < b)
  | fin _, inf s => !s
  | inf s, fin _ => s
  | inf s, inf t => s && !t
  | nan, _ => false
  | _, nan => false

/-- Square root oracle lifted to idealised floats: `sq` plays `sqrtf` on
nonnegative finite arguments, negative arguments give nan. -/
def sqrt (sq : ℚ → ℚ) : FV → FV
  | fin q => if q < 0 then nan else fin (sq q)
  | inf s => if s then nan else inf false
  | nan => nan

end FV

/-- Truncation toward zero, the semantics of a C float-to-int cast. -/
def truncQ (q : ℚ) : ℤ := if 0 ≤ q then ⌊q⌋ else ⌈q⌉

/-- Status enum `ImmaturePointStatus` (ImmaturePoint.h). -/
inductive ImmaturePointStatus where
  | IPS_GOOD
  | IPS_OOB
  | IPS_OUTLIER
  | IPS_SKIPPED
  | IPS_BADCONDITION
  | IPS_UNINITIALIZED
deriving DecidableEq

/-- Row-major 3x3 matrix of exact rationals (Mat33f input `hostToFrame_KRKi`). -/
structure Mat33 where
  a11 : ℚ
  a12 : ℚ
  a13 : ℚ
  a21 : ℚ
  a22 : ℚ
  a23 : ℚ
  a31 : ℚ
  a32 : ℚ
  a33 : ℚ
deriving DecidableEq

/-- Column vector of exact rationals (Vec3f). -/
structure Vec3Q where
  x : ℚ
  y : ℚ
  z : ℚ
deriving DecidableEq

/-- Matrix-vector product `m * (x, y, z)`. -/
def mat33mulV (m : Mat33) (x y z : ℚ) : Vec3Q :=
  ⟨m.a11 * x + m.a12 * y + m.a13 * z,
   m.a21 * x + m.a22 * y + m.a23 * z,
   m.a31 * x + m.a32 * y + m.a33 * z⟩

/-- Settings and externally supplied constants consumed by `traceOn`.
`wG0`/`hG0` are `wG[0]`/`hG[0]`; `pattern` is `patternP`; `sq` is the
`sqrtf` oracle. -/
structure TraceSettings where
  wG0 : ℚ
  hG0 : ℚ
  maxPixSearch : ℚ
  slackInterval : ℚ
  stepsize : ℚ
  minImprovementFactor : ℚ
  GNIterations : ℕ
  GNThreshold : ℚ
  extraSlackOnTH : ℚ
  minTraceTestRadius : ℤ
  huberTH : ℚ
  pattern : List (ℤ × ℤ)
  sq : ℚ → ℚ

/-- Target-frame inputs of `traceOn`: the precomputed `KRKi` and `Kt`, and
the interpolated image-and-gradient oracle for `frame->dI` (`none` exactly
when the interpolated channel-0 value is non-finite). -/
structure TraceFrame where
  KRKi : Mat33
  Kt : Vec3Q
  dI : ℚ → ℚ → Option (ℚ × ℚ × ℚ)

/-- Mutable per-point state read and written by `traceOn`
(fields of class ImmaturePoint). -/
structure TraceState where
  u : ℚ
  v : ℚ
  color : List ℚ
  weights : List ℚ
  gradH11 : ℚ
  gradH12 : ℚ
  gradH22 : ℚ
  idepth_min : FV
  idepth_max : FV
  quality : ℚ
  energyTH : ℚ
  lastTraceStatus : ImmaturePointStatus
  lastTracePixelInterval : FV
  lastTraceUV : ℚ × ℚ
deriving DecidableEq

/-- Pattern offsets rotated by the top-left 2x2 block of `KRKi`
(`rotatetPattern`). -/
def rotatePattern (m : Mat33) (pat : List (ℤ × ℤ)) : List (ℚ × ℚ) :=
  pat.map (fun p => (m.a11 * (p.1 : ℚ) + m.a12 * (p.2 : ℚ),
                     m.a21 * (p.1 : ℚ) + m.a22 * (p.2 : ℚ)))

/-- Componentwise maxima of the truncated absolute rotated offsets
(`maxRotPatX`, `maxRotPatY`). -/
def maxAbsTrunc (xs : List (ℚ × ℚ)) : ℤ × ℤ :=
  xs.foldl (fun acc r => (max acc.1 (truncQ |r.1|), max acc.2 (truncQ |r.2|))) (0, 0)

/-- Admissible-bounds test `u > boundU && v > boundV && u < wG0-boundU-1 &&
v < hG0-boundV-1` applied to a projected endpoint. -/
def inImageBounds (w h : ℚ) (bU bV : ℤ) (u v : ℚ) : Bool :=
  decide ((bU : ℚ) < u) && decide ((bV : ℚ) < v) &&
  decide (u < w - bU - 1) && decide (v < h - bV - 1)

/-- Bound used by the endpoint checks along the u axis
(`boundU = max(4, maxRotPatX + 2)`). -/
def traceBoundU (cfg : TraceSettings) (fr : TraceFrame) : ℤ :=
  max 4 ((maxAbsTrunc (rotatePattern fr.KRKi cfg.pattern)).1 + 2)

/-- Bound used by the endpoint checks along the v axis. -/
def traceBoundV (cfg : TraceSettings) (fr : TraceFrame) : ℤ :=
  max 4 ((maxAbsTrunc (rotatePattern fr.KRKi cfg.pattern)).2 + 2)

/-- Pixel projection of the point at a finite inverse depth `q`:
`(pr + Kt*q).xy / (pr + Kt*q).z`. -/
def projectIdepth (fr : TraceFrame) (s : TraceState) (q : ℚ) : ℚ × ℚ :=
  ((( mat33mulV fr.KRKi s.u s.v 1).x + fr.Kt.x * q) /
     ((mat33mulV fr.KRKi s.u s.v 1).z + fr.Kt.z * q),
   (((mat33mulV fr.KRKi s.u s.v 1).y + fr.Kt.y * q) /
     ((mat33mulV fr.KRKi s.u s.v 1).z + fr.Kt.z * q)))

/-- State update shared by every OOB return of `traceOn`. -/
def oobState (s : TraceState) : TraceState :=
  { s with lastTraceUV := (-1, -1), lastTracePixelInterval := FV.fin 0,
           lastTraceStatus := .IPS_OOB }

/-- Finiteness test of a projected pixel pair: the coordinates are usable
exactly when both are finite (a non-finite coordinate always fails the
subsequent bound check, for any of nan and the signed infinities). -/
def toPixel : FV → FV → Option (ℚ × ℚ)
  | .fin u, .fin v => some (u, v)
  | _, _ => none

/-- Result of projecting the far endpoint: out of bounds, interval already
certain (SKIPPED), or a segment to search. -/
inductive EndpointRes where
  | oob
  | skip (uMax vMax dist : ℚ)
  | ok (uMax vMax dist : ℚ)
deriving DecidableEq

/-- Far-endpoint projection of `traceOn`: the finite-`idepth_max` branch
projects at `idepth_max` and may SKIP when the segment is below
`slackInterval`; the non-finite branch projects at depth 0.01 for a
direction only and searches `maxPixSearch` pixels. -/
def traceEndpoint (cfg : TraceSettings) (maxPixSearch : ℚ) (pr kt : Vec3Q)
    (bU bV : ℤ) (uMin vMin : ℚ) (idmax : FV) : EndpointRes :=
  match idmax with
  | .fin q =>
    let uMaxF := FV.div (.fin (pr.x + kt.x * q)) (.fin (pr.z + kt.z * q))
    let vMaxF := FV.div (.fin (pr.y + kt.y * q)) (.fin (pr.z + kt.z * q))
    match toPixel uMaxF vMaxF with
    | some uv =>
      if inImageBounds cfg.wG0 cfg.hG0 bU bV uv.1 uv.2 then
        let dist := cfg.sq ((uMin - uv.1) * (uMin - uv.1) + (vMin - uv.2) * (vMin - uv.2))
        if dist < cfg.slackInterval then .skip uv.1 uv.2 dist
        else .ok uv.1 uv.2 dist
      else .oob
    | none => .oob
  | _ =>
    let dist := maxPixSearch
    let pz := pr.z + kt.z * (1 / 100)
    let uMax0 := FV.div (.fin (pr.x + kt.x * (1 / 100))) (.fin pz)
    let vMax0 := FV.div (.fin (pr.y + kt.y * (1 / 100))) (.fin pz)
    let dxF := FV.sub uMax0 (.fin uMin)
    let dyF := FV.sub vMax0 (.fin vMin)
    let dF := FV.div (.fin 1) (FV.sqrt cfg.sq (FV.add (FV.mul dxF dxF) (FV.mul dyF dyF)))
    let uMaxF := FV.add (.fin uMin) (FV.mul (FV.mul (.fin dist) dxF) dF)
    let vMaxF := FV.add (.fin vMin) (FV.mul (FV.mul (.fin dist) dyF) dF)
    match toPixel uMaxF vMaxF with
    | some uv =>
      if inImageBounds cfg.wG0 cfg.hG0 bU bV uv.1 uv.2 then .ok uv.1 uv.2 dist
      else .oob
    | none => .oob

/-- Context handed from the early gates of `traceOn` to the discrete
search: `dx`/`dy` are the unit step (after division by `dist`), `eip` is
`errorInPixel` after the cap at 10, `ptx`/`pty` the jittered start. -/
structure TraceCtx where
  pr : Vec3Q
  uMin : ℚ
  vMin : ℚ
  dist : ℚ
  eip : FV
  dx : ℚ
  dy : ℚ
  numSteps : ℤ
  ptx : ℚ
  pty : ℚ
  rotPat : List (ℚ × ℚ)
deriving DecidableEq

/-- Outcome of the early gates of `traceOn` (steps 1-4 plus the direction
sanity check): an early return with its updated state, or the context for
the discrete search. -/
inductive TracePre where
  | exit (status : ImmaturePointStatus) (s : TraceState)
  | go (ctx : TraceCtx)
deriving DecidableEq

/-- Early gates of `ImmaturePoint::traceOn`: OOB short-circuit, endpoint
projections and bound checks, SKIPPED, the scale-change gate, the
improvement gate (BADCONDITION), the cap of `errorInPixel` at 10, the
search clamp at `maxPixSearch`, the step count, the deterministic jitter,
and the non-finite-direction OOB check. -/
def tracePre (cfg : TraceSettings) (fr : TraceFrame) (s : TraceState) : TracePre :=
  if s.lastTraceStatus = .IPS_OOB then .exit .IPS_OOB s
  else
    let maxPixSearch := (cfg.wG0 + cfg.hG0) * cfg.maxPixSearch
    let pr := mat33mulV fr.KRKi s.u s.v 1
    let ptpMinZ := FV.add (.fin pr.z) (FV.mul (.fin fr.Kt.z) s.idepth_min)
    let uMinF := FV.div (FV.add (.fin pr.x) (FV.mul (.fin fr.Kt.x) s.idepth_min)) ptpMinZ
    let vMinF := FV.div (FV.add (.fin pr.y) (FV.mul (.fin fr.Kt.y) s.idepth_min)) ptpMinZ
    let rotPat := rotatePattern fr.KRKi cfg.pattern
    let mrp := maxAbsTrunc rotPat
    let boundU : ℤ := max 4 (mrp.1 + 2)
    let boundV : ℤ := max 4 (mrp.2 + 2)
    match toPixel uMinF vMinF with
    | some uvMin =>
      let uMin := uvMin.1
      let vMin := uvMin.2
      if inImageBounds cfg.wG0 cfg.hG0 boundU boundV uMin vMin then
        match traceEndpoint cfg maxPixSearch pr fr.Kt boundU boundV uMin vMin s.idepth_max with
        | .oob => .exit .IPS_OOB (oobState s)
        | .skip uMax vMax dist =>
          .exit .IPS_SKIPPED
            { s with lastTraceUV := ((uMax + uMin) * (1 / 2), (vMax + vMin) * (1 / 2)),
                     lastTracePixelInterval := .fin dist,
                     lastTraceStatus := .IPS_SKIPPED }
        | .ok uMax vMax dist =>
          if !(FV.lt s.idepth_min (.fin 0) ||
               (FV.lt (.fin (3 / 4)) ptpMinZ && FV.lt ptpMinZ (.fin (3 / 2)))) then
            .exit .IPS_OOB (oobState s)
          else
            let dx0 := cfg.stepsize * (uMax - uMin)
            let dy0 := cfg.stepsize * (vMax - vMin)
            let a := dx0 * (s.gradH11 * dx0 + s.gradH12 * dy0) +
                     dy0 * (s.gradH12 * dx0 + s.gradH22 * dy0)
            let b := dy0 * (s.gradH11 * dy0 + s.gradH12 * (-dx0)) +
                     (-dx0) * (s.gradH12 * dy0 + s.gradH22 * (-dx0))
            let eip0 := FV.add (.fin (1 / 5)) (FV.mul (.fin (1 / 5)) (FV.div (.fin (a + b)) (.fin a)))
            if FV.lt (.fin dist) (FV.mul eip0 (.fin cfg.minImprovementFactor)) &&
               s.idepth_max.isFinite then
              .exit .IPS_BADCONDITION
                { s with lastTraceUV := ((uMax + uMin) * (1 / 2), (vMax + vMin) * (1 / 2)),
                         lastTracePixelInterval := .fin dist,
                         lastTraceStatus := .IPS_BADCONDITION }
            else
              let eip := if FV.lt (.fin 10) eip0 then .fin 10 else eip0
              let dxU := FV.div (.fin dx0) (.fin dist)
              let dyU := FV.div (.fin dy0) (.fin dist)
              let dist2 := if maxPixSearch < dist then maxPixSearch else dist
              let numSteps0 := truncQ (19999 / 10000 + dist2 / cfg.stepsize)
              let numSteps := if numSteps0 ≥ 100 then 99 else numSteps0
              let randShift : ℚ := uMin * 1000 - ⌊uMin * 1000⌋
              match toPixel dxU dyU with
              | some duv =>
                .go { pr := pr, uMin := uMin, vMin := vMin, dist := dist2, eip := eip,
                      dx := duv.1, dy := duv.2, numSteps := numSteps,
                      ptx := uMin - randShift * duv.1, pty := vMin - randShift * duv.2,
                      rotPat := rotPat }
              | none => .exit .IPS_OOB (oobState s)
      else .exit .IPS_OOB (oobState s)
    | none => .exit .IPS_OOB (oobState s)

/-- Huber-weighted photometric energy of a single residual:
`hw * res * res * (2 - hw)` with `hw = res < th ? 1 : th/|res|`. -/
def huberEnergy (huberTH residual : ℚ) : ℚ :=
  let hw := if |residual| < huberTH then 1 else huberTH / |residual|
  hw * residual * residual * (2 - hw)

/-- Pattern energy of one discrete-search step: a non-finite hit adds 1e5,
a finite hit adds the Huber energy of the affine-corrected residual. -/
def stepEnergy (cfg : TraceSettings) (fr : TraceFrame) (aff : ℚ × ℚ)
    (color : List ℚ) (rotPat : List (ℚ × ℚ)) (ptx pty : ℚ) : ℚ :=
  (rotPat.zip color).foldl
    (fun acc rc =>
      match fr.dI (ptx + rc.1.1) (pty + rc.1.2) with
      | none => acc + 100000
      | some hit => acc + huberEnergy cfg.huberTH (hit.1 - (aff.1 * rc.2 + aff.2)))
    0

/-- Accumulator of the discrete search: running best location, energy and
index, plus the per-step energies (`errors`). -/
structure SearchRes where
  bestU : ℚ
  bestV : ℚ
  bestEnergy : ℚ
  bestIdx : ℤ
  errors : List ℚ
deriving DecidableEq

/-- Loop body of the discrete search: `fuel` steps remain, `i` is the step
index, `ptx`/`pty` the current sample location (advanced by the unit step
each iteration, as in the source loop). -/
def searchLoop (cfg : TraceSettings) (fr : TraceFrame) (aff : ℚ × ℚ)
    (color : List ℚ) (rotPat : List (ℚ × ℚ)) (dx dy : ℚ) :
    ℕ → ℤ → ℚ → ℚ → SearchRes → SearchRes
  | 0, _, _, _, acc => acc
  | fuel + 1, i, ptx, pty, acc =>
    let e := stepEnergy cfg fr aff color rotPat ptx pty
    let acc2 := { acc with errors := acc.errors ++ [e] }
    let acc3 :=
      if e < acc.bestEnergy then
        { acc2 with bestU := ptx, bestV := pty, bestEnergy := e, bestIdx := i }
      else acc2
    searchLoop cfg fr aff color rotPat dx dy fuel (i + 1) (ptx + dx) (pty + dy) acc3

/-- Discrete search of `traceOn`: `numSteps` unit strides from the jittered
start, recording the best energy and all step energies. -/
def searchPhase (cfg : TraceSettings) (fr : TraceFrame) (aff : ℚ × ℚ)
    (s : TraceState) (ctx : TraceCtx) : SearchRes :=
  searchLoop cfg fr aff s.color ctx.rotPat ctx.dx ctx.dy ctx.numSteps.toNat 0 ctx.ptx ctx.pty
    { bestU := 0, bestV := 0, bestEnergy := 10000000000, bestIdx := -1, errors := [] }

/-- Loop body of the second-best scan, `i` the running index. -/
def secondBestLoop (radius bestIdx : ℤ) : List ℚ → ℤ → ℚ → ℚ
  | [], _, sb => sb
  | e :: rest, i, sb =>
    secondBestLoop radius bestIdx rest (i + 1)
      (if (i < bestIdx - radius || i > bestIdx + radius) && e < sb then e else sb)

/-- Lowest step energy at indices outside the radius around `bestIdx`
(`secondBest`). -/
def secondBestEnergy (radius bestIdx : ℤ) (errors : List ℚ) : ℚ :=
  secondBestLoop radius bestIdx errors 0 10000000000

/-- Quality update of `traceOn`: adopt `secondBest / bestEnergy` when it is
lower than the stored quality or the search had more than 10 steps. -/
def qualityAfter (cfg : TraceSettings) (s : TraceState) (sr : SearchRes)
    (numSteps : ℤ) : ℚ :=
  let newQuality := secondBestEnergy cfg.minTraceTestRadius sr.bestIdx sr.errors / sr.bestEnergy
  if newQuality < s.quality ∨ numSteps > 10 then newQuality else s.quality

/-- State of the 1-D Gauss-Newton refinement of `traceOn`. -/
structure GNState where
  bestU : ℚ
  bestV : ℚ
  bestEnergy : ℚ
  uBak : ℚ
  vBak : ℚ
  stepBack : ℚ
deriving DecidableEq

/-- One Gauss-Newton accumulation pass over the pattern: returns `none` on
the in-loop image-bounds failure (the immediate OOB return), otherwise the
accumulated `(H, b, energy)`. -/
def gnAccum (cfg : TraceSettings) (fr : TraceFrame) (aff : ℚ × ℚ) (dx dy bu bv : ℚ) :
    List ((ℚ × ℚ) × ℚ × ℚ) → ℚ × ℚ × ℚ → Option (ℚ × ℚ × ℚ)
  | [], acc => some acc
  | pcw :: rest, acc =>
    let posU := bu + pcw.1.1
    let posV := bv + pcw.1.2
    if posU < 0 ∨ posV < 0 ∨ posU ≥ cfg.wG0 - 1 ∨ posV ≥ cfg.hG0 - 1 then none
    else
      match fr.dI posU posV with
      | none => gnAccum cfg fr aff dx dy bu bv rest (acc.1, acc.2.1, acc.2.2 + 100000)
      | some hit =>
        let residual := hit.1 - (aff.1 * pcw.2.1 + aff.2)
        let dResdDist := dx * hit.2.1 + dy * hit.2.2
        let hw := if |residual| < cfg.huberTH then 1 else cfg.huberTH / |residual|
        gnAccum cfg fr aff dx dy bu bv rest
          (acc.1 + hw * dResdDist * dResdDist,
           acc.2.1 + hw * residual * dResdDist,
           acc.2.2 + pcw.2.2 * pcw.2.2 * hw * residual * residual * (2 - hw))

/-- Gauss-Newton iterations of `traceOn`: on an energy increase halve the
backtracking step from the saved point, otherwise take `-b/H` clamped to
[-0.5, 0.5]; stop when the last step is below `GNThreshold`.  `none`
signals the in-loop OOB return. -/
def gnIter (cfg : TraceSettings) (fr : TraceFrame) (aff : ℚ × ℚ) (dx dy : ℚ)
    (pats : List ((ℚ × ℚ) × ℚ × ℚ)) : ℕ → GNState → Option GNState
  | 0, g => some g
  | n + 1, g =>
    match gnAccum cfg fr aff dx dy g.bestU g.bestV pats (1, 0, 0) with
    | none => none
    | some hbe =>
      let g2 :=
        if hbe.2.2 > g.bestEnergy then
          let sb := g.stepBack * (1 / 2)
          { g with stepBack := sb, bestU := g.uBak + sb * dx, bestV := g.vBak + sb * dy }
        else
          let step0 := -(1 : ℚ) * hbe.2.1 / hbe.1
          let step := if step0 < -(1 / 2) then -(1 / 2)
                      else if step0 > 1 / 2 then 1 / 2 else step0
          { bestU := g.bestU + step * dx, bestV := g.bestV + step * dy,
            bestEnergy := hbe.2.2, uBak := g.bestU, vBak := g.bestV, stepBack := step }
      if |g2.stepBack| < cfg.GNThreshold then some g2
      else gnIter cfg fr aff dx dy pats n g2

/-- Gauss-Newton phase: seed from the discrete search (with the 1e5 energy
reset when iterations are enabled) and run `GNIterations` iterations. -/
def gnPhase (cfg : TraceSettings) (fr : TraceFrame) (aff : ℚ × ℚ)
    (s : TraceState) (ctx : TraceCtx) (sr : SearchRes) : Option GNState :=
  gnIter cfg fr aff ctx.dx ctx.dy (ctx.rotPat.zip (s.color.zip s.weights))
    cfg.GNIterations
    { bestU := sr.bestU, bestV := sr.bestV,
      bestEnergy := if 0 < cfg.GNIterations then 100000 else sr.bestEnergy,
      uBak := sr.bestU, vBak := sr.bestV, stepBack := 0 }

/-- Epipolar re-lift of a refined pixel coordinate `X` to an inverse depth:
`(pr_z * X - pr_c) / (Kt_c - Kt_z * X)` along the dominant axis. -/
def relift (prz prc ktc ktz : ℚ) (x : FV) : FV :=
  FV.div (FV.sub (FV.mul (.fin prz) x) (.fin prc))
         (FV.sub (.fin ktc) (FV.mul (.fin ktz) x))

/-- Swap of an out-of-order interval pair (`std::swap` guarded by
`idepth_min > idepth_max`; a comparison against nan is false, so a nan pair
is not swapped). -/
def sortPairFV (p : FV × FV) : FV × FV := if FV.lt p.2 p.1 then (p.2, p.1) else p

/-- Failure test of the interval-update step:
`!isfinite(idepth_min) || !isfinite(idepth_max) || idepth_max < 0`. -/
def intervalBad (q : FV × FV) : Bool :=
  !q.1.isFinite || !q.2.isFinite || FV.lt q.2 (.fin 0)

/-- Tail of the interval-update step, on an already re-lifted endpoint
pair: swap if out of order, then return OUTLIER on a non-finite endpoint or
a negative upper endpoint, otherwise GOOD with
`lastTracePixelInterval = 2 * errorInPixel` and the best pixel in
`lastTraceUV`. -/
def updateIntervalWith (eip : FV) (bu bv : ℚ) (p : FV × FV)
    (s : TraceState) : ImmaturePointStatus × TraceState :=
  let q := sortPairFV p
  if intervalBad q then
    (.IPS_OUTLIER,
     { s with idepth_min := q.1, idepth_max := q.2,
              lastTracePixelInterval := .fin 0, lastTraceUV := (-1, -1),
              lastTraceStatus := .IPS_OUTLIER })
  else
    (.IPS_GOOD,
     { s with idepth_min := q.1, idepth_max := q.2,
              lastTracePixelInterval := FV.mul (.fin 2) eip,
              lastTraceUV := (bu, bv),
              lastTraceStatus := .IPS_GOOD })

/-- Interval-update step (step 9) of `traceOn`: re-lift `best +- eip*step`
through the dominant axis and hand the pair to `updateIntervalWith`. -/
def updateInterval (kt pr : Vec3Q) (eip : FV) (dx dy bu bv : ℚ)
    (s : TraceState) : ImmaturePointStatus × TraceState :=
  updateIntervalWith eip bu bv
    (if dx * dx > dy * dy then
      (relift pr.z pr.x kt.x kt.z (FV.sub (.fin bu) (FV.mul eip (.fin dx))),
       relift pr.z pr.x kt.x kt.z (FV.add (.fin bu) (FV.mul eip (.fin dx))))
    else
      (relift pr.z pr.y kt.y kt.z (FV.sub (.fin bv) (FV.mul eip (.fin dy))),
       relift pr.z pr.y kt.y kt.z (FV.add (.fin bv) (FV.mul eip (.fin dy))))) s

/-- Model of `ImmaturePoint::traceOn`: early gates, discrete search,
quality update, Gauss-Newton refinement, the energy-based outlier gate with
its two-strike escalation, and the interval update.  Returns the status
together with the updated point state. -/
def traceOn (cfg : TraceSettings) (fr : TraceFrame) (aff : ℚ × ℚ)
    (s : TraceState) : ImmaturePointStatus × TraceState :=
  match tracePre cfg fr s with
  | .exit st s2 => (st, s2)
  | .go ctx =>
    let sr := searchPhase cfg fr aff s ctx
    let s1 := { s with quality := qualityAfter cfg s sr ctx.numSteps }
    match gnPhase cfg fr aff s ctx sr with
    | none => (.IPS_OOB, oobState s1)
    | some g =>
      if ¬(g.bestEnergy < s.energyTH * cfg.extraSlackOnTH) then
        if s1.lastTraceStatus = .IPS_OUTLIER then
          (.IPS_OOB,
           { s1 with lastTracePixelInterval := .fin 0, lastTraceUV := (-1, -1),
                     lastTraceStatus := .IPS_OOB })
        else
          (.IPS_OUTLIER,
           { s1 with lastTracePixelInterval := .fin 0, lastTraceUV := (-1, -1),
                     lastTraceStatus := .IPS_OUTLIER })
      else updateInterval fr.Kt ctx.pr ctx.eip ctx.dx ctx.dy g.bestU g.bestV s1

/-- Per-point data read by the first pass of `FullSystem::activatePointsMT`
over the immature points of a non-newest host keyframe. -/
structure ActPoint where
  idepth_min : FV
  idepth_max : FV
  lastTraceStatus : ImmaturePointStatus
  lastTracePixelInterval : FV
  quality : ℚ
  hostFlaggedForMarginalization : Bool
deriving DecidableEq

/-- Outcome of the first activation pass for one immature point: deleted,
forwarded to the distance-map gate as an activation candidate, or left in
place. -/
inductive ActOutcome where
  | deleted
  | eligible
  | kept
deriving DecidableEq

/-- The `canActivate` condition of `activatePointsMT`. -/
def canActivate (minTraceQuality : ℚ) (p : ActPoint) : Bool :=
  (p.lastTraceStatus = .IPS_GOOD || p.lastTraceStatus = .IPS_SKIPPED ||
   p.lastTraceStatus = .IPS_BADCONDITION || p.lastTraceStatus = .IPS_OOB) &&
  FV.lt p.lastTracePixelInterval (.fin 8) &&
  decide (p.quality > minTraceQuality) &&
  FV.lt (.fin 0) (FV.add p.idepth_max p.idepth_min)

/-- First pass of `activatePointsMT` on one immature point: delete on a
never-successful trace or an OUTLIER last status; otherwise forward
activatable points; otherwise delete exactly when the host is flagged for
marginalisation or the last status is OOB. -/
def activatePointsMT (minTraceQuality : ℚ) (p : ActPoint) : ActOutcome :=
  if !p.idepth_max.isFinite || p.lastTraceStatus = .IPS_OUTLIER then .deleted
  else if canActivate minTraceQuality p then .eligible
  else if p.hostFlaggedForMarginalization || p.lastTraceStatus = .IPS_OOB then .deleted
  else .kept

/-- Piecewise density-based increments applied to `currentMinActDist` at
the start of `activatePointsMT`, before the clamp (`nPoints` is
`ef->nPoints`, `desired` is `setting_desiredPointDensity`). -/
def adjustMinActDistRaw (nPoints desired cur : ℚ) : ℚ :=
  let c1 := if nPoints < desired * (66 / 100) then cur - 8 / 10 else cur
  let c2 :=
    if nPoints < desired * (8 / 10) then c1 - 5 / 10
    else if nPoints < desired * (9 / 10) then c1 - 2 / 10
    else if nPoints < desired then c1 - 1 / 10
    else c1
  let c3 := if nPoints > desired * (15 / 10) then c2 + 8 / 10 else c2
  let c4 := if nPoints > desired * (13 / 10) then c3 + 5 / 10 else c3
  let c5 := if nPoints > desired * (115 / 100) then c4 + 2 / 10 else c4
  if nPoints > desired then c5 + 1 / 10 else c5

/-- Saturation of `currentMinActDist` at [0, 4] (the two trailing ifs of
the adjustment). -/
def clampActDist (c : ℚ) : ℚ :=
  let c1 := if c < 0 then 0 else c
  if c1 > 4 then 4 else c1

/-- Density-based adjustment and clamp of `currentMinActDist` at the start
of `activatePointsMT`. -/
def adjustMinActDist (nPoints desired cur : ℚ) : ℚ :=
  clampActDist (adjustMinActDistRaw nPoints desired cur)

/-- Initialisation-failure check of `FullSystem::makeKeyFrame`: with the
keyframe history at 2, 3 or 4 entries, an RMSE above 20, 13 or 9 times
`benchmark_initializerSlackFactor` sets `initFailed`. -/
def updateInitFailed (prev : Bool) (nKF : ℕ) (rmse slack : ℚ) : Bool :=
  if nKF ≤ 4 then
    ((prev || (decide (nKF = 2) && decide (rmse > 20 * slack))) ||
     (decide (nKF = 3) && decide (rmse > 13 * slack))) ||
    (decide (nKF = 4) && decide (rmse > 9 * slack))
  else prev

/-- Inner search of `FullSystem::setGammaFunction`: the first
`s` in 1..254 with `BInv[s] <= i <= BInv[s+1]`. -/
def gammaFindS (binv : ℕ → ℚ) (i : ℕ) : Option ℕ :=
  (List.range' 1 254).find? (fun t => decide (binv t ≤ (i : ℚ) ∧ (i : ℚ) ≤ binv (t + 1)))

/-- Model of `FullSystem::setGammaFunction`: copy `BInv`, invert it
piecewise-linearly into `B` for indices 1..254 (an index with no bracketing
`s` keeps the previous table value), then pin `B[0] = 0`, `B[255] = 255`.
Table entries are idealised floats because the interpolation divides by
`BInv[s+1] - BInv[s]`. -/
def setGammaFunction (bOld : ℕ → FV) (binv : ℕ → ℚ) : (ℕ → ℚ) × (ℕ → FV) :=
  (binv, fun i =>
    if i = 0 then .fin 0
    else if i = 255 then .fin 255
    else if i ≤ 254 then
      match gammaFindS binv i with
      | some t => FV.add (.fin (t : ℚ))
          (FV.div (.fin ((i : ℚ) - binv t)) (.fin (binv (t + 1) - binv t)))
      | none => bOld i
    else bOld i)

/-- Result of the depth-candidate part of
`FullSystem::initializeFromInitializer`: the rescale factor, the rescaled
initial translation, and one `(idepth_scaled, hasDepthPrior)` pair per
retained candidate. -/
structure InitResult where
  rescaleFactor : ℚ
  translation : Vec3Q
  points : List (ℚ × Bool)
deriving DecidableEq

/-- Model of the rescaling part of `initializeFromInitializer` over the
level-0 candidates `iRs`: the accumulators `sumID` and `numID` start at
1e-5, the factor is `1 / (sumID / numID)`, the translation is divided by
the factor, and each retained candidate (the random subsampling and the
finite-energy checks are the oracle `keep`) becomes an active point with
inverse depth `iR * rescaleFactor` and `hasDepthPrior = true`. -/
def initializeFromInitializer (iRs : List ℚ) (keep : ℕ → Bool) (t : Vec3Q) : InitResult :=
  let sumID : ℚ := 1 / 100000 + iRs.sum
  let numID : ℚ := 1 / 100000 + iRs.length
  let f := 1 / (sumID / numID)
  { rescaleFactor := f,
    translation := ⟨t.x / f, t.y / f, t.z / f⟩,
    points := ((List.range iRs.length).filter keep).map (fun i => (iRs.getD i 0 * f, true)) }

/-- Rescale factor as the specification words it: `1 / mean(iR_i)`. -/
def specRescaleFactor (iRs : List ℚ) : ℚ := 1 / (iRs.sum / iRs.length)

/-- Weighted Huber energy of one pattern residual:
`weight^2 * hw * res^2 * (2 - hw)`. -/
def huberEnergyW (huberTH w residual : ℚ) : ℚ :=
  let hw := if |residual| < huberTH then 1 else huberTH / |residual|
  w * w * hw * residual * residual * (2 - hw)

/-- Accumulation loop of `ImmaturePoint::calcResidual`: `none` models the
immediate `return 1e10` on a failed projection or a non-finite hit colour;
`proj` is the `projectPoint` oracle per pattern index. -/
def calcResidualLoop (huberTH : ℚ) (aff : ℚ × ℚ) (dI : ℚ → ℚ → Option (ℚ × ℚ × ℚ))
    (proj : ℕ → Option (ℚ × ℚ)) : List (ℚ × ℚ) → ℕ → ℚ → Option ℚ
  | [], _, acc => some acc
  | cw :: rest, idx, acc =>
    match proj idx with
    | none => none
    | some kuv =>
      match dI kuv.1 kuv.2 with
      | none => none
      | some hit =>
        calcResidualLoop huberTH aff dI proj rest (idx + 1)
          (acc + huberEnergyW huberTH cw.2 (hit.1 - (aff.1 * cw.1 + aff.2)))

/-- Model of `ImmaturePoint::calcResidual`: sentinel 1e10 on projection or
interpolation failure, otherwise the accumulated pattern energy capped at
`energyTH * outlierTHSlack`. -/
def calcResidual (huberTH energyTH outlierTHSlack : ℚ) (aff : ℚ × ℚ)
    (dI : ℚ → ℚ → Option (ℚ × ℚ × ℚ)) (proj : ℕ → Option (ℚ × ℚ))
    (colorWeights : List (ℚ × ℚ)) : ℚ :=
  match calcResidualLoop huberTH aff dI proj colorWeights 0 0 with
  | none => 10000000000
  | some e => if e > energyTH * outlierTHSlack then energyTH * outlierTHSlack else e

/-- Square-root oracle of the concrete scenarios: exact on the only
argument that occurs there. -/
def demoSqrt (q : ℚ) : ℚ := if q = 16 then 4 else 0

/-- Concrete trace settings of the evaluation scenarios: a 100x100 image, a
single-offset pattern, unit step size and Gauss-Newton disabled (a legal
configuration, `setting_trace_GNIterations` is a runtime setting). -/
def demoCfg : TraceSettings :=
  { wG0 := 100, hG0 := 100, maxPixSearch := 1, slackInterval := 1, stepsize := 1,
    minImprovementFactor := 3 / 2, GNIterations := 0, GNThreshold := 1 / 10,
    extraSlackOnTH := 2, minTraceTestRadius := 2, huberTH := 9,
    pattern := [(0, 0)], sq := demoSqrt }

/-- Target frame of the bad-interval scenarios: identity rotation, unit
baseline along x, and an image whose best match sits at `x = 32`. -/
def demoFrameA : TraceFrame :=
  { KRKi := ⟨1, 0, 0, 0, 1, 0, 0, 0, 1⟩, Kt := ⟨1, 0, 0⟩,
    dI := fun x _ => some (if x = 32 then 11 else 13, 0, 0) }

/-- Point state of the bad-interval scenario entering with a stored OUTLIER
status: a zero `gradH` makes `errorInPixel = 0.2 + 0.2 * 0/0 = nan`, which
poisons the re-lifted interval. -/
def demoStateA : TraceState :=
  { u := 30, v := 30, color := [10], weights := [1],
    gradH11 := 0, gradH12 := 0, gradH22 := 0,
    idepth_min := .fin 0, idepth_max := .fin 4,
    quality := 10000, energyTH := 100,
    lastTraceStatus := .IPS_OUTLIER, lastTracePixelInterval := .fin 0,
    lastTraceUV := (0, 0) }

/-- Bad-interval scenario entering with an UNINITIALIZED status. -/
def demoStateB : TraceState := { demoStateA with lastTraceStatus := .IPS_UNINITIALIZED }

/-- Target frame of the good-trace scenario: best match at `x = 30`. -/
def demoFrameC : TraceFrame :=
  { KRKi := ⟨1, 0, 0, 0, 1, 0, 0, 0, 1⟩, Kt := ⟨1, 0, 0⟩,
    dI := fun x _ => some (if x = 30 then 11 else 13, 0, 0) }

/-- Point state of the good-trace scenario: identity `gradH`, so
`errorInPixel = 3/5`, and the refined interval comes out as
`[-3/5, 3/5]` - finite with a negative lower endpoint. -/
def demoStateC : TraceState := { demoStateB with gradH11 := 1, gradH22 := 1 }

/-- Search context reached by the bad-interval scenarios. -/
def ctxA : TraceCtx :=
  { pr := ⟨30, 30, 1⟩, uMin := 30, vMin := 30, dist := 4, eip := .nan,
    dx := 1, dy := 0, numSteps := 5, ptx := 30, pty := 30, rotPat := [(0, 0)] }

/-- Discrete-search result of the bad-interval scenarios. -/
def srA : SearchRes :=
  { bestU := 32, bestV := 30, bestEnergy := 1, bestIdx := 2, errors := [9, 9, 1, 9, 9] }

/-- Gauss-Newton result of the bad-interval scenarios (iterations
disabled). -/
def gA : GNState :=
  { bestU := 32, bestV := 30, bestEnergy := 1, uBak := 32, vBak := 30, stepBack := 0 }

/-- Search context reached by the good-trace scenario. -/
def ctxC : TraceCtx := { ctxA with eip := .fin (3 / 5) }

/-- Discrete-search result of the good-trace scenario. -/
def srC : SearchRes :=
  { bestU := 30, bestV := 30, bestEnergy := 1, bestIdx := 0, errors := [1, 9, 9, 9, 9] }

/-- Gauss-Newton result of the good-trace scenario. -/
def gC : GNState :=
  { bestU := 30, bestV := 30, bestEnergy := 1, uBak := 30, vBak := 30, stepBack := 0 }

/-- Zero-baseline target frame of the SKIPPED scenario. -/
def demoFrameD : TraceFrame :=
  { KRKi := ⟨1, 0, 0, 0, 1, 0, 0, 0, 1⟩, Kt := ⟨0, 0, 0⟩,
    dI := fun _ _ => some (13, 0, 0) }

/-- Point state of the SKIPPED scenario: a point interval
`idepth_min = idepth_max = 1`. -/
def demoStateD : TraceState :=
  { demoStateB with idepth_min := .fin 1, idepth_max := .fin 1 }

/-- Concrete immature point of the activation-pass evaluation: a
never-successfully-traced point (`idepth_max` still nan). -/
def demoActPoint : ActPoint :=
  { idepth_min := .fin 0, idepth_max := .nan, lastTraceStatus := .IPS_GOOD,
    lastTracePixelInterval := .fin 0, quality := 2,
    hostFlaggedForMarginalization := false }

/-- Concrete inverse-gamma table of the gamma-inversion evaluation. -/
def demoBinv (n : ℕ) : ℚ := if n = 1 then 0 else 300

theorem FV_isFinite_true {x : FV} (h : x.isFinite = true) : ∃ q, x = .fin q := by
  cases x <;> simp [FV.isFinite] at h ⊢

theorem intervalBad_false_iff (q : FV × FV) :
    intervalBad q = false ↔
      (q.1.isFinite = true ∧ q.2.isFinite = true ∧ FV.lt q.2 (.fin 0) = false) := by
  unfold intervalBad
  cases h1 : q.1.isFinite <;> cases h2 : q.2.isFinite <;> cases h3 : FV.lt q.2 (.fin 0) <;> simp

theorem intervalBad_true_iff (q : FV × FV) :
    intervalBad q = true ↔
      (q.1.isFinite = false ∨ q.2.isFinite = false ∨ FV.lt q.2 (.fin 0) = true) := by
  unfold intervalBad
  cases h1 : q.1.isFinite <;> cases h2 : q.2.isFinite <;> cases h3 : FV.lt q.2 (.fin 0) <;> simp

theorem updateIntervalWith_cases (eip : FV) (bu bv : ℚ) (p : FV × FV) (s : TraceState) :
    ((updateIntervalWith eip bu bv p s).1 = .IPS_OUTLIER ∨
     (updateIntervalWith eip bu bv p s).1 = .IPS_GOOD) ∧
    (updateIntervalWith eip bu bv p s).2.lastTraceStatus = (updateIntervalWith eip bu bv p s).1 ∧
    ((updateIntervalWith eip bu bv p s).1 = .IPS_OUTLIER ↔
      ((updateIntervalWith eip bu bv p s).2.idepth_min.isFinite = false ∨
       (updateIntervalWith eip bu bv p s).2.idepth_max.isFinite = false ∨
       FV.lt (updateIntervalWith eip bu bv p s).2.idepth_max (.fin 0) = true)) ∧
    ((updateIntervalWith eip bu bv p s).1 = .IPS_GOOD →
      (∃ qmin qmax, (updateIntervalWith eip bu bv p s).2.idepth_min = .fin qmin ∧
        (updateIntervalWith eip bu bv p s).2.idepth_max = .fin qmax ∧
        qmin ≤ qmax ∧ 0 ≤ qmax) ∧
      (updateIntervalWith eip bu bv p s).2.lastTracePixelInterval = FV.mul (.fin 2) eip ∧
      (updateIntervalWith eip bu bv p s).2.lastTraceUV = (bu, bv)) := by
  simp only [updateIntervalWith]
  split
  case isTrue hbad =>
    refine ⟨Or.inl rfl, rfl, ?_, fun hg => nomatch hg⟩
    simp only [true_iff]
    exact (intervalBad_true_iff _).mp hbad
  case isFalse hok =>
    have hok' := (intervalBad_false_iff _).mp (Bool.eq_false_iff.mpr hok)
    obtain ⟨hf1, hf2, hnn⟩ := hok'
    obtain ⟨a, ha⟩ := FV_isFinite_true hf1
    obtain ⟨b, hb⟩ := FV_isFinite_true hf2
    refine ⟨Or.inr rfl, rfl, ?_, ?_⟩
    · constructor
      · intro hh; exact nomatch hh
      · rintro (h | h | h)
        · rw [hf1] at h; exact nomatch h
        · rw [hf2] at h; exact nomatch h
        · rw [hnn] at h; exact nomatch h
    · intro _
      refine ⟨⟨a, b, ha, hb, ?_, ?_⟩, rfl, rfl⟩
      · rcases p with ⟨p1, p2⟩
        cases hsw : FV.lt p2 p1 with
        | true =>
          simp only [sortPairFV, hsw, if_true] at ha hb
          subst ha; subst hb
          have hab : a < b := by simpa [FV.lt] using hsw
          exact le_of_lt hab
        | false =>
          simp only [sortPairFV, hsw, Bool.false_eq_true, if_false] at ha hb
          subst ha; subst hb
          have hab : ¬ (b < a) := by simpa [FV.lt] using hsw
          exact le_of_not_lt hab
      · rw [hb] at hnn
        simpa [FV.lt] using hnn

theorem tracePre_exit_status (cfg : TraceSettings) (fr : TraceFrame) (s : TraceState)
    (st : ImmaturePointStatus) (s2 : TraceState)
    (h : tracePre cfg fr s = .exit st s2) :
    s2.lastTraceStatus = st ∧
    (st = .IPS_OOB ∨ st = .IPS_SKIPPED ∨ st = .IPS_BADCONDITION) := by
  simp only [tracePre] at h
  split at h
  case isTrue h0 =>
    injection h with h1 h2
    subst h1; subst h2
    exact ⟨h0, Or.inl rfl⟩
  case isFalse =>
    split at h
    case h_1 =>
      split at h
      case isTrue =>
        split at h
        case h_1 =>
          injection h with h1 h2
          subst h1; subst h2
          exact ⟨rfl, Or.inl rfl⟩
        case h_2 =>
          injection h with h1 h2
          subst h1; subst h2
          exact ⟨rfl, Or.inr (Or.inl rfl)⟩
        case h_3 =>
          split at h
          case isTrue =>
            injection h with h1 h2
            subst h1; subst h2
            exact ⟨rfl, Or.inl rfl⟩
          case isFalse =>
            split at h
            case isTrue =>
              injection h with h1 h2
              subst h1; subst h2
              exact ⟨rfl, Or.inr (Or.inr rfl)⟩
            case isFalse =>
              split at h
              case h_1 => exact absurd h (by simp)
              case h_2 =>
                injection h with h1 h2
                subst h1; subst h2
                exact ⟨rfl, Or.inl rfl⟩
      case isFalse =>
        injection h with h1 h2
        subst h1; subst h2
        exact ⟨rfl, Or.inl rfl⟩
    case h_2 =>
      injection h with h1 h2
      subst h1; subst h2
      exact ⟨rfl, Or.inl rfl⟩

theorem tracePreA : tracePre demoCfg demoFrameA demoStateA = .go ctxA := by
  norm_num [tracePre, demoCfg, demoFrameA, demoStateA, mat33mulV, FV.add, FV.mul,
    FV.div, FV.sub, FV.lt, FV.isFinite, rotatePattern, maxAbsTrunc, truncQ,
    inImageBounds, traceEndpoint, toPixel, demoSqrt, oobState, ctxA]
  exact fun h => nomatch h

theorem searchA : searchPhase demoCfg demoFrameA (1, 0) demoStateA ctxA = srA := by
  norm_num [searchPhase, searchLoop, stepEnergy, huberEnergy, demoCfg, demoFrameA,
    demoStateA, ctxA, srA]

theorem gnA : gnPhase demoCfg demoFrameA (1, 0) demoStateA ctxA srA = some gA := by
  norm_num [gnPhase, gnIter, demoCfg, ctxA, srA, gA]

theorem qualA : qualityAfter demoCfg demoStateA srA ctxA.numSteps = 10000 := by
  norm_num [qualityAfter, secondBestEnergy, secondBestLoop, demoCfg, demoStateA, ctxA, srA]

theorem traceOnA : traceOn demoCfg demoFrameA (1, 0) demoStateA =
    (.IPS_OUTLIER,
      { demoStateA with idepth_min := .nan, idepth_max := .nan,
                        lastTracePixelInterval := .fin 0, lastTraceUV := (-1, -1),
                        lastTraceStatus := .IPS_OUTLIER }) := by
  rw [traceOn, tracePreA]
  simp only [searchA, gnA, qualA]
  norm_num [updateInterval, updateIntervalWith, sortPairFV, intervalBad, relift, ctxA,
    demoCfg, demoStateA, gA, FV.add, FV.mul, FV.div, FV.sub, FV.neg, FV.lt, FV.isFinite]

theorem tracePreB : tracePre demoCfg demoFrameA demoStateB = .go ctxA := by
  norm_num [tracePre, demoCfg, demoFrameA, demoStateB, demoStateA, mat33mulV, FV.add, FV.mul,
    FV.div, FV.sub, FV.lt, FV.isFinite, rotatePattern, maxAbsTrunc, truncQ,
    inImageBounds, traceEndpoint, toPixel, demoSqrt, oobState, ctxA]
  exact fun h => nomatch h

theorem searchB : searchPhase demoCfg demoFrameA (1, 0) demoStateB ctxA = srA := by
  norm_num [searchPhase, searchLoop, stepEnergy, huberEnergy, demoCfg, demoFrameA,
    demoStateB, demoStateA, ctxA, srA]

theorem gnB : gnPhase demoCfg demoFrameA (1, 0) demoStateB ctxA srA = some gA := by
  norm_num [gnPhase, gnIter, demoCfg, ctxA, srA, gA, demoStateB, demoStateA]

theorem qualB : qualityAfter demoCfg demoStateB srA ctxA.numSteps = 10000 := by
  norm_num [qualityAfter, secondBestEnergy, secondBestLoop, demoCfg, demoStateB, demoStateA,
    ctxA, srA]

theorem traceOnB : traceOn demoCfg demoFrameA (1, 0) demoStateB =
    (.IPS_OUTLIER,
      { demoStateB with idepth_min := .nan, idepth_max := .nan,
                        lastTracePixelInterval := .fin 0, lastTraceUV := (-1, -1),
                        lastTraceStatus := .IPS_OUTLIER }) := by
  rw [traceOn, tracePreB]
  simp only [searchB, gnB, qualB]
  norm_num [updateInterval, updateIntervalWith, sortPairFV, intervalBad, relift, ctxA,
    demoCfg, demoStateB, demoStateA, gA, FV.add, FV.mul, FV.div, FV.sub, FV.neg, FV.lt,
    FV.isFinite]

theorem tracePreC : tracePre demoCfg demoFrameC demoStateC = .go ctxC := by
  norm_num [tracePre, demoCfg, demoFrameC, demoStateC, demoStateB, demoStateA, mat33mulV,
    FV.add, FV.mul,
    FV.div, FV.sub, FV.lt, FV.isFinite, rotatePattern, maxAbsTrunc, truncQ,
    inImageBounds, traceEndpoint, toPixel, demoSqrt, oobState, ctxC, ctxA]
  exact fun h => nomatch h

theorem searchC : searchPhase demoCfg demoFrameC (1, 0) demoStateC ctxC = srC := by
  norm_num [searchPhase, searchLoop, stepEnergy, huberEnergy, demoCfg, demoFrameC,
    demoStateC, demoStateB, demoStateA, ctxC, ctxA, srC]

theorem gnC : gnPhase demoCfg demoFrameC (1, 0) demoStateC ctxC srC = some gC := by
  norm_num [gnPhase, gnIter, demoCfg, ctxC, ctxA, srC, gC, demoStateC, demoStateB, demoStateA]

theorem qualC : qualityAfter demoCfg demoStateC srC ctxC.numSteps = 9 := by
  norm_num [qualityAfter, secondBestEnergy, secondBestLoop, demoCfg, demoStateC, demoStateB,
    demoStateA, ctxC, ctxA, srC]

theorem traceOnC : traceOn demoCfg demoFrameC (1, 0) demoStateC =
    (.IPS_GOOD,
      { demoStateC with idepth_min := .fin (-3 / 5), idepth_max := .fin (3 / 5),
                        quality := 9,
                        lastTracePixelInterval := .fin (6 / 5), lastTraceUV := (30, 30),
                        lastTraceStatus := .IPS_GOOD }) := by
  rw [traceOn, tracePreC]
  simp only [searchC, gnC, qualC]
  simp only [demoCfg, demoFrameC, demoStateC, demoStateB, demoStateA, ctxC, ctxA, gC]
  norm_num [updateInterval, updateIntervalWith, sortPairFV, intervalBad, relift, FV.add,
    FV.mul, FV.div, FV.sub, FV.neg, FV.lt, FV.isFinite]

theorem traceOn_skip_aux (cfg : TraceSettings) (fr : TraceFrame) (aff : ℚ × ℚ)
    (s : TraceState) (qmin qmax : ℚ)
    (hst : s.lastTraceStatus ≠ .IPS_OOB)
    (hmin : s.idepth_min = .fin qmin)
    (hmax : s.idepth_max = .fin qmax)
    (hz1 : ¬((mat33mulV fr.KRKi s.u s.v 1).z + fr.Kt.z * qmin = 0))
    (hb1 : inImageBounds cfg.wG0 cfg.hG0 (traceBoundU cfg fr) (traceBoundV cfg fr)
      (projectIdepth fr s qmin).1 (projectIdepth fr s qmin).2 = true)
    (hz2 : ¬((mat33mulV fr.KRKi s.u s.v 1).z + fr.Kt.z * qmax = 0))
    (hb2 : inImageBounds cfg.wG0 cfg.hG0 (traceBoundU cfg fr) (traceBoundV cfg fr)
      (projectIdepth fr s qmax).1 (projectIdepth fr s qmax).2 = true)
    (hd : cfg.sq
      (((projectIdepth fr s qmin).1 - (projectIdepth fr s qmax).1) *
        ((projectIdepth fr s qmin).1 - (projectIdepth fr s qmax).1) +
       ((projectIdepth fr s qmin).2 - (projectIdepth fr s qmax).2) *
        ((projectIdepth fr s qmin).2 - (projectIdepth fr s qmax).2)) < cfg.slackInterval) :
    (traceOn cfg fr aff s).1 = .IPS_SKIPPED ∧
    (traceOn cfg fr aff s).2.idepth_min = s.idepth_min ∧
    (traceOn cfg fr aff s).2.idepth_max = s.idepth_max := by
  have hpre : tracePre cfg fr s = .exit .IPS_SKIPPED
      { s with lastTraceUV := (((projectIdepth fr s qmax).1 + (projectIdepth fr s qmin).1) * (1 / 2),
                               ((projectIdepth fr s qmax).2 + (projectIdepth fr s qmin).2) * (1 / 2)),
               lastTracePixelInterval := .fin (cfg.sq
                 (((projectIdepth fr s qmin).1 - (projectIdepth fr s qmax).1) *
                   ((projectIdepth fr s qmin).1 - (projectIdepth fr s qmax).1) +
                  ((projectIdepth fr s qmin).2 - (projectIdepth fr s qmax).2) *
                   ((projectIdepth fr s qmin).2 - (projectIdepth fr s qmax).2))),
               lastTraceStatus := .IPS_SKIPPED } := by
    simp only [tracePre, if_neg hst, hmin, hmax, traceEndpoint, FV.add, FV.mul, FV.div,
      projectIdepth, traceBoundU, traceBoundV, toPixel] at hb1 hb2 hd ⊢
    simp only [hz1, hz2, if_neg, if_false, ite_false, if_true, ite_true, hb1, hb2]
    simp only [if_pos hd]
  rw [traceOn, hpre]
  exact ⟨rfl, rfl, rfl⟩


/-- C4: first activation pass of `activatePointsMT` on one immature point of
a non-newest host: the point is deleted when `idepth_max` is non-finite or
the last trace status is OUTLIER; it is eligible exactly when the last status
is GOOD, SKIPPED, BADCONDITION or OOB, `lastTracePixelInterval < 8`,
`quality > minQuality` and `idepth_max + idepth_min > 0`; an ineligible
point is deleted exactly when its host is flagged for marginalisation or its
last status is OOB, and kept otherwise. -/
theorem activatePointsMT_spec (minq : ℚ) (p : ActPoint) :
    ((p.idepth_max.isFinite = false ∨ p.lastTraceStatus = .IPS_OUTLIER) →
      activatePointsMT minq p = .deleted) ∧
    (activatePointsMT minq p = .eligible ↔
      (p.idepth_max.isFinite = true ∧
       (p.lastTraceStatus = .IPS_GOOD ∨ p.lastTraceStatus = .IPS_SKIPPED ∨
        p.lastTraceStatus = .IPS_BADCONDITION ∨ p.lastTraceStatus = .IPS_OOB) ∧
       FV.lt p.lastTracePixelInterval (.fin 8) = true ∧
       p.quality > minq ∧
       FV.lt (.fin 0) (FV.add p.idepth_max p.idepth_min) = true)) ∧
    ((p.idepth_max.isFinite = true ∧ p.lastTraceStatus ≠ .IPS_OUTLIER ∧
      canActivate minq p = false) →
      ((activatePointsMT minq p = .deleted ↔
        (p.hostFlaggedForMarginalization = true ∨ p.lastTraceStatus = .IPS_OOB)) ∧
       (activatePointsMT minq p = .kept ↔
        ¬(p.hostFlaggedForMarginalization = true ∨ p.lastTraceStatus = .IPS_OOB)))) := by
  cases h1 : (!p.idepth_max.isFinite || decide (p.lastTraceStatus = .IPS_OUTLIER)) with
  | true =>
    have hout : p.idepth_max.isFinite = false ∨ p.lastTraceStatus = .IPS_OUTLIER := by
      simpa [Bool.or_eq_true, Bool.not_eq_true'] using h1
    have hres : activatePointsMT minq p = .deleted := by
      unfold activatePointsMT
      rw [if_pos h1]
    refine ⟨fun _ => hres, ?_, ?_⟩
    · rw [hres]
      constructor
      · intro hh; exact nomatch hh
      · rintro ⟨hfin, hset, -⟩
        rcases hout with ho | ho
        · rw [hfin] at ho; exact nomatch ho
        · rcases hset with hs | hs | hs | hs <;> (rw [hs] at ho; exact nomatch ho)
    · rintro ⟨hfin, hnout, -⟩
      rcases hout with ho | ho
      · rw [hfin] at ho; exact nomatch ho
      · exact absurd ho hnout
  | false =>
    have hfin : p.idepth_max.isFinite = true := by
      rcases hx : p.idepth_max.isFinite with _ | _
      · rw [hx] at h1; simp at h1
      · rfl
    have hnout : ¬(p.lastTraceStatus = .IPS_OUTLIER) := by
      intro hout; rw [hout] at h1; simp [hfin] at h1
    have hskip1 : ¬((!p.idepth_max.isFinite || decide (p.lastTraceStatus = .IPS_OUTLIER)) = true) := by
      simp [h1]
    cases h2 : canActivate minq p with
    | true =>
      have hres : activatePointsMT minq p = .eligible := by
        unfold activatePointsMT
        rw [if_neg hskip1, if_pos h2]
      have hcomp := h2
      unfold canActivate at hcomp
      simp only [Bool.and_eq_true, Bool.or_eq_true, decide_eq_true_eq] at hcomp
      obtain ⟨⟨⟨hset, hint⟩, hq⟩, hsum⟩ := hcomp
      refine ⟨?_, ?_, ?_⟩
      · rintro (ho | ho)
        · rw [hfin] at ho; exact nomatch ho
        · exact absurd ho hnout
      · rw [hres]
        constructor
        · intro _
          exact ⟨hfin, by tauto, hint, hq, hsum⟩
        · intro _; rfl
      · rintro ⟨-, -, hc⟩
        exact nomatch hc
    | false =>
      have hB : ¬(activatePointsMT minq p = .eligible) ∧
          (activatePointsMT minq p = .deleted ↔
            (p.hostFlaggedForMarginalization || decide (p.lastTraceStatus = .IPS_OOB)) = true) ∧
          (activatePointsMT minq p = .kept ↔
            ¬((p.hostFlaggedForMarginalization || decide (p.lastTraceStatus = .IPS_OOB)) = true)) := by
        unfold activatePointsMT
        rw [if_neg hskip1, if_neg (by simp [h2])]
        cases h3 : (p.hostFlaggedForMarginalization || decide (p.lastTraceStatus = .IPS_OOB)) with
        | true =>
          rw [if_pos rfl]
          exact ⟨(fun hh => nomatch hh), ⟨fun _ => rfl, fun _ => rfl⟩,
                 (fun hh => nomatch hh), fun hh => absurd rfl hh⟩
        | false =>
          rw [if_neg (fun hh => nomatch hh)]
          exact ⟨(fun hh => nomatch hh),
                 ⟨(fun hh => nomatch hh), fun hh => nomatch hh⟩,
                 (fun _ => fun hh => nomatch hh), fun _ => rfl⟩
      refine ⟨?_, ?_, ?_⟩
      · rintro (ho | ho)
        · rw [hfin] at ho; exact nomatch ho
        · exact absurd ho hnout
      · constructor
        · intro hh; exact absurd hh hB.1
        · rintro ⟨-, hset, hint, hq, hsum⟩
          have : canActivate minq p = true := by
            unfold canActivate
            rcases hset with hs | hs | hs | hs <;> simp [hs, hint, hq, hsum]
          rw [h2] at this; exact nomatch this
      · rintro ⟨-, -, -⟩
        constructor
        · rw [hB.2.1]
          simp [Bool.or_eq_true, decide_eq_true_eq]
        · rw [hB.2.2]
          simp [Bool.or_eq_true, decide_eq_true_eq]

/-- C5: after the density-based adjustment at the start of every
`activatePointsMT` call, `currentMinActDist` lies in the closed interval
[0, 4], whatever its previous value and the point densities were. -/
theorem currentMinActDist_bounds (nPoints desired cur : ℚ) :
    0 ≤ adjustMinActDist nPoints desired cur ∧ adjustMinActDist nPoints desired cur ≤ 4 := by
  simp only [adjustMinActDist, clampActDist]
  split_ifs <;> constructor <;> linarith

/-- C6: `makeKeyFrame` sets `initFailed` exactly at the tiered thresholds:
`rmse > 20 * slack` with 2 keyframes in history, `> 13 * slack` with 3,
`> 9 * slack` with 4; with 5 or more keyframes the RMSE never sets it. -/
theorem initFailed_tiers (nKF : ℕ) (rmse slack : ℚ) :
    updateInitFailed false nKF rmse slack = true ↔
      ((nKF = 2 ∧ rmse > 20 * slack) ∨ (nKF = 3 ∧ rmse > 13 * slack) ∨
       (nKF = 4 ∧ rmse > 9 * slack)) := by
  unfold updateInitFailed
  by_cases h : nKF ≤ 4
  · simp only [if_pos h, Bool.or_eq_true, Bool.and_eq_true, decide_eq_true_eq,
      Bool.false_or]
    tauto
  · simp only [if_neg h]
    constructor
    · intro hh; exact nomatch hh
    · rintro (⟨h2, -⟩ | ⟨h3, -⟩ | ⟨h4, -⟩) <;> omega



/-- C7: `setGammaFunction` copies the caller-supplied inverse table into the
calibration, pins the forward endpoints `B 0 = 0` and `B 255 = 255`, and for
every inner index `1 <= i <= 254` whose first bracketing index `s` (the first
`1 <= s <= 254` with `BInv s <= i <= BInv (s+1)`) exists, stores the
piecewise-linear inverse `B i = s + (i - BInv s) / (BInv (s+1) - BInv s)`. -/
theorem setGammaFunction_spec (bOld : ℕ → FV) (binv : ℕ → ℚ) :
    (setGammaFunction bOld binv).1 = binv ∧
    (setGammaFunction bOld binv).2 0 = .fin 0 ∧
    (setGammaFunction bOld binv).2 255 = .fin 255 ∧
    (∀ i t, 1 ≤ i → i ≤ 254 → gammaFindS binv i = some t →
      (1 ≤ t ∧ t ≤ 254 ∧ binv t ≤ (i : ℚ) ∧ (i : ℚ) ≤ binv (t + 1)) ∧
      (binv (t + 1) - binv t ≠ 0 →
        (setGammaFunction bOld binv).2 i =
          .fin ((t : ℚ) + ((i : ℚ) - binv t) / (binv (t + 1) - binv t)))) := by
  refine ⟨rfl, rfl, rfl, ?_⟩
  intro i t h1 h254 hfind
  constructor
  · have hmem : t ∈ List.range' 1 254 := List.mem_of_find?_eq_some hfind
    have hsat := List.find?_some hfind
    simp only [decide_eq_true_eq] at hsat
    have hrange : 1 ≤ t ∧ t < 1 + 254 := List.mem_range'_1.mp hmem
    exact ⟨hrange.1, by omega, hsat.1, hsat.2⟩
  · intro hne
    simp only [setGammaFunction]
    rw [if_neg (by omega), if_neg (by omega), if_pos (by omega), hfind]
    simp [FV.add, FV.div, hne]

theorem gammaFindS_demo : gammaFindS demoBinv 5 = some 1 := by
  unfold gammaFindS
  rw [show (254 : ℕ) = 253 + 1 from rfl, List.range'_succ]
  rw [List.find?_cons_of_pos]
  norm_num [demoBinv]

/-- C8 (amended): on initialiser success the rescale factor is
`(1e-5 + n) / (1e-5 + sum iR_i)` over the n level-0 depth candidates (the
code seeds both accumulators with 1e-5, so it is not exactly `1 / mean`),
the initial translation is divided by that factor, and every retained
candidate becomes an active point with inverse depth `iR * rescaleFactor`
and a depth prior. -/
theorem initializeFromInitializer_spec (iRs : List ℚ) (keep : ℕ → Bool) (t : Vec3Q) :
    (initializeFromInitializer iRs keep t).rescaleFactor =
      (1 / 100000 + (iRs.length : ℚ)) / (1 / 100000 + iRs.sum) ∧
    (initializeFromInitializer iRs keep t).translation =
      ⟨t.x / (initializeFromInitializer iRs keep t).rescaleFactor,
       t.y / (initializeFromInitializer iRs keep t).rescaleFactor,
       t.z / (initializeFromInitializer iRs keep t).rescaleFactor⟩ ∧
    (∀ pt ∈ (initializeFromInitializer iRs keep t).points,
      pt.2 = true ∧ ∃ i, i < iRs.length ∧ keep i = true ∧
        pt.1 = iRs.getD i 0 * (initializeFromInitializer iRs keep t).rescaleFactor) := by
  have hres : (initializeFromInitializer iRs keep t).rescaleFactor =
      (1 / 100000 + (iRs.length : ℚ)) / (1 / 100000 + iRs.sum) := by
    simp only [initializeFromInitializer]
    rw [one_div_div]
  refine ⟨hres, rfl, ?_⟩
  intro pt hpt
  simp only [initializeFromInitializer, List.mem_map, List.mem_filter,
    List.mem_range] at hpt
  obtain ⟨i, ⟨hi, hk⟩, hpt⟩ := hpt
  subst hpt
  exact ⟨rfl, i, hi, hk, rfl⟩

/-- C8 counterexample: with the single candidate list `[2]` the computed
rescale factor differs from the specified `1 / mean(iR_i) = 1 / 2`. -/
theorem initializeFromInitializer_counterexample :
    (initializeFromInitializer [2] (fun _ => true) ⟨1, 0, 0⟩).rescaleFactor ≠
      specRescaleFactor [2] := by
  norm_num [initializeFromInitializer, specRescaleFactor]

theorem huberEnergyW_nonneg (huberTH w r : ℚ) (hth : 0 < huberTH) :
    0 ≤ huberEnergyW huberTH w r := by
  simp only [huberEnergyW]
  split_ifs with h
  · nlinarith [sq_nonneg (w * r)]
  · have hr : huberTH ≤ |r| := not_lt.mp h
    have hrpos : (0 : ℚ) < |r| := lt_of_lt_of_le hth hr
    have h1 : 0 < huberTH / |r| := div_pos hth hrpos
    have h2 : huberTH / |r| ≤ 1 := (div_le_one hrpos).mpr hr
    have heq : w * w * (huberTH / |r|) * r * r * (2 - huberTH / |r|) =
        (w * r) * (w * r) * ((huberTH / |r|) * (2 - huberTH / |r|)) := by ring
    rw [heq]
    have hx : 0 ≤ (huberTH / |r|) * (2 - huberTH / |r|) := by nlinarith
    exact mul_nonneg (mul_self_nonneg _) hx

theorem calcResidualLoop_nonneg (huberTH : ℚ) (aff : ℚ × ℚ)
    (dI : ℚ → ℚ → Option (ℚ × ℚ × ℚ)) (proj : ℕ → Option (ℚ × ℚ))
    (hth : 0 < huberTH) :
    ∀ (cw : List (ℚ × ℚ)) (idx : ℕ) (acc e : ℚ), 0 ≤ acc →
      calcResidualLoop huberTH aff dI proj cw idx acc = some e → 0 ≤ e := by
  intro cw
  induction cw with
  | nil =>
    intro idx acc e hacc h
    simp only [calcResidualLoop] at h
    injection h with h
    subst h; exact hacc
  | cons head tail ih =>
    intro idx acc e hacc h
    simp only [calcResidualLoop] at h
    split at h
    · exact nomatch h
    · split at h
      · exact nomatch h
      · exact ih (idx + 1) _ e (add_nonneg hacc (huberEnergyW_nonneg _ _ _ hth)) h

/-- C10: `calcResidual` returns either the sentinel 1e10 (projection failure
or non-finite hit colour) or a non-negative energy capped at
`energyTH * outlierTHSlack`; no finite value strictly between the cap and
the sentinel is possible. -/
theorem calcResidual_capped (huberTH energyTH outlierTHSlack : ℚ) (aff : ℚ × ℚ)
    (dI : ℚ → ℚ → Option (ℚ × ℚ × ℚ)) (proj : ℕ → Option (ℚ × ℚ))
    (colorWeights : List (ℚ × ℚ))
    (hth : 0 < huberTH) (hcap : 0 ≤ energyTH * outlierTHSlack) :
    calcResidual huberTH energyTH outlierTHSlack aff dI proj colorWeights = 10000000000 ∨
    (0 ≤ calcResidual huberTH energyTH outlierTHSlack aff dI proj colorWeights ∧
     calcResidual huberTH energyTH outlierTHSlack aff dI proj colorWeights ≤
       energyTH * outlierTHSlack) := by
  cases hloop : calcResidualLoop huberTH aff dI proj colorWeights 0 0 with
  | none => left; simp only [calcResidual, hloop]
  | some e =>
    right
    have he : 0 ≤ e :=
      calcResidualLoop_nonneg huberTH aff dI proj hth colorWeights 0 0 e (le_refl 0) hloop
    simp only [calcResidual, hloop]
    split_ifs with h
    · exact ⟨hcap, le_refl _⟩
    · exact ⟨he, not_lt.mp h⟩



/-- C9: the stored `lastTraceStatus` always equals the returned status, and
whenever `traceOn` returns GOOD the stored inverse-depth interval is finite,
ordered and has a non-negative upper endpoint, `lastTracePixelInterval`
equals twice `errorInPixel`, and `lastTraceUV` is the refined best-match
pixel. -/
theorem traceOn_good_spec (cfg : TraceSettings) (fr : TraceFrame) (aff : ℚ × ℚ) (s : TraceState) :
    (traceOn cfg fr aff s).2.lastTraceStatus = (traceOn cfg fr aff s).1 ∧
    ((traceOn cfg fr aff s).1 = .IPS_GOOD →
      ∃ ctx g,
        tracePre cfg fr s = .go ctx ∧
        gnPhase cfg fr aff s ctx (searchPhase cfg fr aff s ctx) = some g ∧
        (∃ qmin qmax, (traceOn cfg fr aff s).2.idepth_min = .fin qmin ∧
          (traceOn cfg fr aff s).2.idepth_max = .fin qmax ∧ qmin ≤ qmax ∧ 0 ≤ qmax) ∧
        (traceOn cfg fr aff s).2.lastTracePixelInterval = FV.mul (.fin 2) ctx.eip ∧
        (traceOn cfg fr aff s).2.lastTraceUV = (g.bestU, g.bestV)) := by
  simp only [traceOn]
  split
  case h_1 st s2 heq =>
    obtain ⟨hs1, hs2⟩ := tracePre_exit_status _ _ _ _ _ heq
    refine ⟨hs1, fun hg => ?_⟩
    rcases hs2 with h | h | h <;> (subst h; exact nomatch hg)
  case h_2 ctx heq =>
    split
    case h_1 hgn => exact ⟨by simp [oobState], fun hg => nomatch hg⟩
    case h_2 g hgn =>
      split
      case isTrue =>
        split
        case isTrue => exact ⟨rfl, fun hg => nomatch hg⟩
        case isFalse => exact ⟨rfl, fun hg => nomatch hg⟩
      case isFalse hen =>
        rw [updateInterval]
        have hc := updateIntervalWith_cases ctx.eip g.bestU g.bestV
          (if ctx.dx * ctx.dx > ctx.dy * ctx.dy then
            (relift ctx.pr.z ctx.pr.x fr.Kt.x fr.Kt.z (FV.sub (.fin g.bestU) (FV.mul ctx.eip (.fin ctx.dx))),
             relift ctx.pr.z ctx.pr.x fr.Kt.x fr.Kt.z (FV.add (.fin g.bestU) (FV.mul ctx.eip (.fin ctx.dx))))
          else
            (relift ctx.pr.z ctx.pr.y fr.Kt.y fr.Kt.z (FV.sub (.fin g.bestV) (FV.mul ctx.eip (.fin ctx.dy))),
             relift ctx.pr.z ctx.pr.y fr.Kt.y fr.Kt.z (FV.add (.fin g.bestV) (FV.mul ctx.eip (.fin ctx.dy)))))
          { s with quality := qualityAfter cfg s (searchPhase cfg fr aff s ctx) ctx.numSteps }
        refine ⟨hc.2.1, fun hg => ?_⟩
        exact ⟨ctx, g, heq, hgn, (hc.2.2.2 hg).1, (hc.2.2.2 hg).2.1, (hc.2.2.2 hg).2.2⟩

/-- C9 evaluation: the good-trace scenario reaches GOOD with the stored
interval [-3/5, 3/5], pixel interval 6/5 = 2 * errorInPixel and best-match
pixel (30, 30). -/
theorem traceOn_good_spec_witness :
    (traceOn demoCfg demoFrameC (1, 0) demoStateC).1 = .IPS_GOOD ∧
    (traceOn demoCfg demoFrameC (1, 0) demoStateC).2.lastTraceStatus =
      (traceOn demoCfg demoFrameC (1, 0) demoStateC).1 ∧
    (traceOn demoCfg demoFrameC (1, 0) demoStateC).2.idepth_min = .fin (-3 / 5) ∧
    (traceOn demoCfg demoFrameC (1, 0) demoStateC).2.idepth_max = .fin (3 / 5) ∧
    (traceOn demoCfg demoFrameC (1, 0) demoStateC).2.lastTracePixelInterval = .fin (6 / 5) ∧
    (traceOn demoCfg demoFrameC (1, 0) demoStateC).2.lastTraceUV = (30, 30) :=
  ⟨by rw [traceOnC],
   (traceOn_good_spec demoCfg demoFrameC (1, 0) demoStateC).1,
   by rw [traceOnC], by rw [traceOnC], by rw [traceOnC], by rw [traceOnC]⟩

/-- C1 counterexample: a point whose stored status is already OUTLIER can
get OUTLIER again on the next `traceOn` call (the claimed second-strike
escalation only guards the energy gate, not the interval-update exit). -/
theorem traceOn_second_strike_counterexample :
    demoStateA.lastTraceStatus = .IPS_OUTLIER ∧
    (traceOn demoCfg demoFrameA (1, 0) demoStateA).1 = .IPS_OUTLIER :=
  ⟨rfl, by rw [traceOnA]⟩

/-- C1 (amended): a second consecutive OUTLIER is possible, but only through
the interval-update exit: whenever a call on a point whose stored status is
OUTLIER returns OUTLIER again, the re-lifted interval it stored is
non-finite or has a negative upper endpoint. The energy gate itself does
escalate a second strike to OOB. -/
theorem traceOn_second_strike (cfg : TraceSettings) (fr : TraceFrame) (aff : ℚ × ℚ)
    (s : TraceState) (h1 : s.lastTraceStatus = .IPS_OUTLIER)
    (h2 : (traceOn cfg fr aff s).1 = .IPS_OUTLIER) :
    (traceOn cfg fr aff s).2.idepth_min.isFinite = false ∨
    (traceOn cfg fr aff s).2.idepth_max.isFinite = false ∨
    FV.lt (traceOn cfg fr aff s).2.idepth_max (.fin 0) = true := by
  revert h2
  simp only [traceOn]
  split
  case h_1 st s2 heq =>
    obtain ⟨hs1, hs2⟩ := tracePre_exit_status _ _ _ _ _ heq
    intro h2
    rcases hs2 with h | h | h <;> (subst h; exact nomatch h2)
  case h_2 ctx heq =>
    split
    case h_1 hgn => intro h2; exact nomatch h2
    case h_2 g hgn =>
      split
      next h =>
        intro h2; exact nomatch h2
      next h =>
        intro h2
        rw [updateInterval] at h2 ⊢
        exact ((updateIntervalWith_cases _ _ _ _ _).2.2.1).mp h2

/-- C1 evaluation: the bad-interval scenario discharges both hypotheses of
the amended theorem and exhibits the stored non-finite interval. -/
theorem traceOn_second_strike_witness :
    (traceOn demoCfg demoFrameA (1, 0) demoStateA).2.idepth_min.isFinite = false ∨
    (traceOn demoCfg demoFrameA (1, 0) demoStateA).2.idepth_max.isFinite = false ∨
    FV.lt (traceOn demoCfg demoFrameA (1, 0) demoStateA).2.idepth_max (.fin 0) = true :=
  traceOn_second_strike demoCfg demoFrameA (1, 0) demoStateA rfl (by rw [traceOnA])

/-- C2 counterexample: a non-finite re-lifted interval makes `traceOn`
return OUTLIER, not the claimed OOB, and a finite interval whose lower
endpoint is negative still returns GOOD (only a negative upper endpoint is
checked after the swap). -/
theorem traceOn_interval_update_counterexample :
    ((traceOn demoCfg demoFrameA (1, 0) demoStateB).2.idepth_min = .nan ∧
     (traceOn demoCfg demoFrameA (1, 0) demoStateB).1 = .IPS_OUTLIER ∧
     (traceOn demoCfg demoFrameA (1, 0) demoStateB).1 ≠ .IPS_OOB) ∧
    ((traceOn demoCfg demoFrameC (1, 0) demoStateC).2.idepth_min = .fin (-3 / 5) ∧
     FV.lt (traceOn demoCfg demoFrameC (1, 0) demoStateC).2.idepth_min (.fin 0) = true ∧
     (traceOn demoCfg demoFrameC (1, 0) demoStateC).1 = .IPS_GOOD) := by
  refine ⟨⟨?_, ?_, ?_⟩, ?_, ?_, ?_⟩ <;> norm_num [traceOnB, traceOnC, FV.lt]
  exact fun h => nomatch h

/-- C2 (amended): once the early gates and the energy gate pass, the
interval-update step returns OUTLIER or GOOD; it returns OUTLIER exactly
when the stored re-lifted interval is non-finite or its (post-swap) upper
endpoint is negative, and on GOOD it stores
`lastTracePixelInterval = 2 * errorInPixel` and the best-match pixel. -/
theorem traceOn_interval_update (cfg : TraceSettings) (fr : TraceFrame) (aff : ℚ × ℚ)
    (s : TraceState) (ctx : TraceCtx) (g : GNState)
    (h1 : tracePre cfg fr s = .go ctx)
    (h2 : gnPhase cfg fr aff s ctx (searchPhase cfg fr aff s ctx) = some g)
    (h3 : g.bestEnergy < s.energyTH * cfg.extraSlackOnTH) :
    ((traceOn cfg fr aff s).1 = .IPS_OUTLIER ∨ (traceOn cfg fr aff s).1 = .IPS_GOOD) ∧
    ((traceOn cfg fr aff s).1 = .IPS_OUTLIER ↔
      ((traceOn cfg fr aff s).2.idepth_min.isFinite = false ∨
       (traceOn cfg fr aff s).2.idepth_max.isFinite = false ∨
       FV.lt (traceOn cfg fr aff s).2.idepth_max (.fin 0) = true)) ∧
    ((traceOn cfg fr aff s).1 = .IPS_GOOD →
      (traceOn cfg fr aff s).2.lastTracePixelInterval = FV.mul (.fin 2) ctx.eip ∧
      (traceOn cfg fr aff s).2.lastTraceUV = (g.bestU, g.bestV)) := by
  simp only [traceOn, h1, h2]
  rw [if_neg (fun hc => hc h3)]
  rw [updateInterval]
  have hc := updateIntervalWith_cases ctx.eip g.bestU g.bestV
    (if ctx.dx * ctx.dx > ctx.dy * ctx.dy then
      (relift ctx.pr.z ctx.pr.x fr.Kt.x fr.Kt.z (FV.sub (.fin g.bestU) (FV.mul ctx.eip (.fin ctx.dx))),
       relift ctx.pr.z ctx.pr.x fr.Kt.x fr.Kt.z (FV.add (.fin g.bestU) (FV.mul ctx.eip (.fin ctx.dx))))
    else
      (relift ctx.pr.z ctx.pr.y fr.Kt.y fr.Kt.z (FV.sub (.fin g.bestV) (FV.mul ctx.eip (.fin ctx.dy))),
       relift ctx.pr.z ctx.pr.y fr.Kt.y fr.Kt.z (FV.add (.fin g.bestV) (FV.mul ctx.eip (.fin ctx.dy)))))
    { s with quality := qualityAfter cfg s (searchPhase cfg fr aff s ctx) ctx.numSteps }
  exact ⟨hc.1, hc.2.2.1, fun hg => ⟨(hc.2.2.2 hg).2.1, (hc.2.2.2 hg).2.2⟩⟩

/-- C2 evaluation: the good-trace scenario discharges the three hypotheses
of the amended theorem at concrete inputs. -/
theorem traceOn_interval_update_witness :
    ((traceOn demoCfg demoFrameC (1, 0) demoStateC).1 = .IPS_OUTLIER ∨
     (traceOn demoCfg demoFrameC (1, 0) demoStateC).1 = .IPS_GOOD) ∧
    ((traceOn demoCfg demoFrameC (1, 0) demoStateC).1 = .IPS_OUTLIER ↔
      ((traceOn demoCfg demoFrameC (1, 0) demoStateC).2.idepth_min.isFinite = false ∨
       (traceOn demoCfg demoFrameC (1, 0) demoStateC).2.idepth_max.isFinite = false ∨
       FV.lt (traceOn demoCfg demoFrameC (1, 0) demoStateC).2.idepth_max (.fin 0) = true)) ∧
    ((traceOn demoCfg demoFrameC (1, 0) demoStateC).1 = .IPS_GOOD →
      (traceOn demoCfg demoFrameC (1, 0) demoStateC).2.lastTracePixelInterval =
        FV.mul (.fin 2) ctxC.eip ∧
      (traceOn demoCfg demoFrameC (1, 0) demoStateC).2.lastTraceUV = (gC.bestU, gC.bestV)) :=
  traceOn_interval_update demoCfg demoFrameC (1, 0) demoStateC ctxC gC tracePreC
    (by rw [searchC]; exact gnC)
    (by norm_num [gC, demoStateC, demoStateB, demoStateA, demoCfg])

/-- C3: with a zero baseline and a point interval `idepth_min = idepth_max`,
a projected endpoint inside the admissible bounds makes `traceOn` return
SKIPPED with the interval unchanged; more generally, any trace whose
endpoint distance is below `slackInterval` returns SKIPPED without touching
the interval. -/
theorem traceOn_skipped_spec (cfg : TraceSettings) (fr : TraceFrame) (aff : ℚ × ℚ) :
    (∀ s q, fr.Kt = ⟨0, 0, 0⟩ → s.lastTraceStatus ≠ .IPS_OOB →
      s.idepth_min = .fin q → s.idepth_max = .fin q →
      ¬((mat33mulV fr.KRKi s.u s.v 1).z = 0) →
      inImageBounds cfg.wG0 cfg.hG0 (traceBoundU cfg fr) (traceBoundV cfg fr)
        (projectIdepth fr s q).1 (projectIdepth fr s q).2 = true →
      cfg.sq 0 = 0 → 0 < cfg.slackInterval →
      (traceOn cfg fr aff s).1 = .IPS_SKIPPED ∧
      (traceOn cfg fr aff s).2.idepth_min = s.idepth_min ∧
      (traceOn cfg fr aff s).2.idepth_max = s.idepth_max) ∧
    (∀ s qmin qmax,
      s.lastTraceStatus ≠ .IPS_OOB →
      s.idepth_min = .fin qmin → s.idepth_max = .fin qmax →
      ¬((mat33mulV fr.KRKi s.u s.v 1).z + fr.Kt.z * qmin = 0) →
      inImageBounds cfg.wG0 cfg.hG0 (traceBoundU cfg fr) (traceBoundV cfg fr)
        (projectIdepth fr s qmin).1 (projectIdepth fr s qmin).2 = true →
      ¬((mat33mulV fr.KRKi s.u s.v 1).z + fr.Kt.z * qmax = 0) →
      inImageBounds cfg.wG0 cfg.hG0 (traceBoundU cfg fr) (traceBoundV cfg fr)
        (projectIdepth fr s qmax).1 (projectIdepth fr s qmax).2 = true →
      cfg.sq
        (((projectIdepth fr s qmin).1 - (projectIdepth fr s qmax).1) *
          ((projectIdepth fr s qmin).1 - (projectIdepth fr s qmax).1) +
         ((projectIdepth fr s qmin).2 - (projectIdepth fr s qmax).2) *
          ((projectIdepth fr s qmin).2 - (projectIdepth fr s qmax).2)) < cfg.slackInterval →
      (traceOn cfg fr aff s).1 = .IPS_SKIPPED ∧
      (traceOn cfg fr aff s).2.idepth_min = s.idepth_min ∧
      (traceOn cfg fr aff s).2.idepth_max = s.idepth_max) := by
  constructor
  · intro s q hkt hst hmin hmax hz hb hsq hsl
    refine traceOn_skip_aux cfg fr aff s q q hst hmin hmax ?_ hb ?_ hb ?_
    · rw [hkt]; simpa using hz
    · rw [hkt]; simpa using hz
    · have h0 : (((projectIdepth fr s q).1 - (projectIdepth fr s q).1) *
          ((projectIdepth fr s q).1 - (projectIdepth fr s q).1) +
         ((projectIdepth fr s q).2 - (projectIdepth fr s q).2) *
          ((projectIdepth fr s q).2 - (projectIdepth fr s q).2)) = 0 := by ring
      rw [h0, hsq]; exact hsl
  · intro s qmin qmax hst hmin hmax hz1 hb1 hz2 hb2 hd
    exact traceOn_skip_aux cfg fr aff s qmin qmax hst hmin hmax hz1 hb1 hz2 hb2 hd

/-- C3 evaluation: the zero-baseline scenario returns SKIPPED and leaves
the point interval untouched. -/
theorem traceOn_skipped_spec_witness :
    (traceOn demoCfg demoFrameD (1, 0) demoStateD).1 = .IPS_SKIPPED ∧
    (traceOn demoCfg demoFrameD (1, 0) demoStateD).2.idepth_min = demoStateD.idepth_min ∧
    (traceOn demoCfg demoFrameD (1, 0) demoStateD).2.idepth_max = demoStateD.idepth_max :=
  (traceOn_skipped_spec demoCfg demoFrameD (1, 0)).1 demoStateD 1 rfl
    (by simp [demoStateD, demoStateB, demoStateA]) rfl rfl
    (by norm_num [mat33mulV, demoFrameD, demoStateD, demoStateB, demoStateA])
    (by norm_num [inImageBounds, traceBoundU, traceBoundV, projectIdepth, mat33mulV,
      rotatePattern, maxAbsTrunc, truncQ, demoFrameD, demoCfg, demoStateD, demoStateB,
      demoStateA])
    (by norm_num [demoCfg, demoSqrt])
    (by norm_num [demoCfg])

/-- C4 evaluation: a point with a non-finite `idepth_max` is deleted by the
first activation pass. -/
theorem activatePointsMT_spec_witness :
    activatePointsMT 1 demoActPoint = .deleted :=
  (activatePointsMT_spec 1 demoActPoint).1 (Or.inl (by simp [demoActPoint, FV.isFinite]))

/-- C7 evaluation: with the demo inverse table, index 5 is bracketed first
at s = 1 and the forward value comes out as 1 + (5 - 0) / (300 - 0). -/
theorem setGammaFunction_spec_witness :
    (1 ≤ 1 ∧ 1 ≤ 254 ∧ demoBinv 1 ≤ (5 : ℚ) ∧ (5 : ℚ) ≤ demoBinv (1 + 1)) ∧
    (setGammaFunction (fun _ => FV.nan) demoBinv).2 5 =
      .fin ((1 : ℚ) + ((5 : ℚ) - demoBinv 1) / (demoBinv (1 + 1) - demoBinv 1)) :=
  have hs := (setGammaFunction_spec (fun _ => FV.nan) demoBinv).2.2.2 5 1
    (by norm_num) (by norm_num) gammaFindS_demo
  ⟨hs.1, hs.2 (by norm_num [demoBinv])⟩

/-- C8 evaluation: with a single candidate `iR = 2` and a unit translation
along x, the amended statement evaluates at the one retained point. -/
theorem initializeFromInitializer_spec_witness :
    (initializeFromInitializer [2] (fun _ => true) ⟨1, 0, 0⟩).rescaleFactor =
      (1 / 100000 + ((1 : ℕ) : ℚ)) / (1 / 100000 + 2) ∧
    ∃ i, i < ([2] : List ℚ).length ∧ (fun _ => true) i = true ∧
      (2 * (initializeFromInitializer [2] (fun _ => true) ⟨1, 0, 0⟩).rescaleFactor : ℚ) =
        ([2] : List ℚ).getD i 0 *
          (initializeFromInitializer [2] (fun _ => true) ⟨1, 0, 0⟩).rescaleFactor :=
  have hmem : ((2 * (initializeFromInitializer [2] (fun _ => true) ⟨1, 0, 0⟩).rescaleFactor : ℚ),
      true) ∈ (initializeFromInitializer [2] (fun _ => true) ⟨1, 0, 0⟩).points := by
    simp [initializeFromInitializer, List.range, List.range.loop]
  have hspec := initializeFromInitializer_spec [2] (fun _ => true) ⟨1, 0, 0⟩
  ⟨by simpa using hspec.1, (hspec.2.2 _ hmem).2⟩

/-- C10 evaluation: a concrete single-pixel evaluation with threshold 9,
energy bound 100 and slack 2 discharges both hypotheses. -/
theorem calcResidual_capped_witness :
    calcResidual 9 100 2 (1, 0) (fun _ _ => some (13, 0, 0)) (fun _ => some (10, 10))
        [(10, 1)] = 10000000000 ∨
    (0 ≤ calcResidual 9 100 2 (1, 0) (fun _ _ => some (13, 0, 0)) (fun _ => some (10, 10))
        [(10, 1)] ∧
     calcResidual 9 100 2 (1, 0) (fun _ _ => some (13, 0, 0)) (fun _ => some (10, 10))
        [(10, 1)] ≤ 100 * 2) :=
  calcResidual_capped 9 100 2 (1, 0) (fun _ _ => some (13, 0, 0)) (fun _ => some (10, 10))
    [(10, 1)] (by norm_num) (by norm_num)

end DMVIO
